import Mathlib

/-!
Verification of the Tracking and Pointing concepts of the
binary-beasts backend (src/server/concepts/pointing.ts).

The document store is modelled per user: the state visible to the
operations of one user is `Option TrackingDoc` (respectively
`Option PointDoc`), `none` meaning the user has no record in the
collection.  Each TypeScript method becomes a Lean function taking the
pre-state and returning its result together with the post-state; a
`throw` becomes `Except.error` with the pre-state unchanged, since the
source throws before any `partialUpdateOne` write.

The store driver itself (`DocCollection` in framework/doc) is not part of
the source under verification; its contract is modelled from the spec:
`readOne` is a pure lookup, `createOne` inserts, and `partialUpdateOne`
overwrites the named fields of the matching document and is a silent no-op
(never an error) when no document matches.
-/

namespace Tracking

/-- `Difficulty` enum from pointing.ts. -/
inductive Difficulty where
  | Difficult
  | JustRight
  | Easy
deriving DecidableEq, Repr

/-- `Task` interface from pointing.ts.  `reps`/`sets` are numbers used as
integers; `weight` is a general number, modelled by `Rat`. -/
structure Task where
  name : String
  description : String
  reps : Int
  sets : Option Int
  weight : Option Rat
  completed : Bool
  previousDifficulty : Difficulty
deriving DecidableEq, Repr

/-- One element of `progressHistory`.  The source stores `weekStart` as a
`Date` computed by `getStartOfWeek(new Date())`; dates take no part in any
claim, so the already-computed week start is an opaque integer supplied as
an argument to `resetWeeklyTasks`. -/
structure ProgressEntry where
  weekStart : Int
  completedTasks : List Task
deriving DecidableEq, Repr

/-- `TrackingDoc` from pointing.ts (the `user` key is implicit: the state is
already the one document of the user under consideration). -/
structure TrackingDoc where
  userGoal : String
  weeklyTasks : List Task
  progressHistory : List ProgressEntry
deriving DecidableEq, Repr

/-- The only error the Tracking concept raises (`NotFoundError`). -/
inductive TrackErr where
  | notFound
deriving DecidableEq, Repr

/-- Mutation through a reference returned by `Array.prototype.find`:
the first element satisfying `p` is replaced by its image under `f`,
everything else is untouched. -/
def updateFirst (p : Task → Bool) (f : Task → Task) : List Task → List Task
  | [] => []
  | t :: ts => if p t then f t :: ts else t :: updateFirst p f ts

/-- `createTrackingDoc`: returns the existing document, or creates one with
empty goal, task list and history.  Never throws. -/
def createTrackingDoc (st : Option TrackingDoc) : TrackingDoc × Option TrackingDoc :=
  match st with
  | some trackingDoc => (trackingDoc, some trackingDoc)
  | none =>
    let newDoc : TrackingDoc := { userGoal := "", weeklyTasks := [], progressHistory := [] }
    (newDoc, some newDoc)

/-- `getTrackingDoc`: throws `NotFoundError` when the user has no document. -/
def getTrackingDoc (st : Option TrackingDoc) : Except TrackErr TrackingDoc :=
  match st with
  | none => .error .notFound
  | some trackingDoc => .ok trackingDoc

/-- `createTask`: ensures a tracking document exists, then pushes a new task
with `completed = false` and `previousDifficulty = JustRight`.  Never throws. -/
def createTask (st : Option TrackingDoc) (taskName taskDescription : String)
    (reps : Int) (sets : Option Int) (startingWeight : Option Rat) :
    Task × Option TrackingDoc :=
  let (trackingDoc, _) := createTrackingDoc st
  let newTask : Task :=
    { name := taskName, description := taskDescription, reps := reps, sets := sets,
      weight := startingWeight, completed := false, previousDifficulty := .JustRight }
  (newTask, some { trackingDoc with weeklyTasks := trackingDoc.weeklyTasks ++ [newTask] })

/-- `updateTask`: needs the document and a task with the given name, else
throws `NotFoundError`; then overwrites exactly the provided fields of the
task found by `Array.prototype.find` (the first one with that name). -/
def updateTask (st : Option TrackingDoc) (taskName : String)
    (reps sets : Option Int) (weight : Option Rat) :
    Except TrackErr Task × Option TrackingDoc :=
  match getTrackingDoc st with
  | .error e => (.error e, st)
  | .ok trackingDoc =>
    match trackingDoc.weeklyTasks.find? (fun t => t.name == taskName) with
    | none => (.error .notFound, st)
    | some task =>
      let apply3 : Task → Task := fun t =>
        let t := match reps with | some r => { t with reps := r } | none => t
        let t := match sets with | some s => { t with sets := some s } | none => t
        match weight with | some w => { t with weight := some w } | none => t
      let newTasks := updateFirst (fun t => t.name == taskName) apply3 trackingDoc.weeklyTasks
      (.ok (apply3 task), some { trackingDoc with weeklyTasks := newTasks })

/-- `deleteTask`: needs the document (throws otherwise), then filters out
every task whose name equals `taskName`; absent names are a silent no-op. -/
def deleteTask (st : Option TrackingDoc) (taskName : String) :
    Except TrackErr Unit × Option TrackingDoc :=
  match getTrackingDoc st with
  | .error e => (.error e, st)
  | .ok trackingDoc =>
    (.ok (), some { trackingDoc with
      weeklyTasks := trackingDoc.weeklyTasks.filter (fun t => !(t.name == taskName)) })

/-- `setUserGoal`: a bare `partialUpdateOne` keyed by user; when no document
exists it matches nothing and changes nothing.  Never throws. -/
def setUserGoal (st : Option TrackingDoc) (goal : String) : Option TrackingDoc :=
  match st with
  | none => none
  | some trackingDoc => some { trackingDoc with userGoal := goal }

/-- `setCompleted`: needs the document and the task (throws otherwise), then
flips `completed` on the task found by `find` (the first with that name). -/
def setCompleted (st : Option TrackingDoc) (taskName : String) :
    Except TrackErr Unit × Option TrackingDoc :=
  match getTrackingDoc st with
  | .error e => (.error e, st)
  | .ok trackingDoc =>
    match trackingDoc.weeklyTasks.find? (fun t => t.name == taskName) with
    | none => (.error .notFound, st)
    | some _ =>
      let newTasks := updateFirst (fun t => t.name == taskName)
        (fun t => { t with completed := !t.completed }) trackingDoc.weeklyTasks
      (.ok (), some { trackingDoc with weeklyTasks := newTasks })

/-- `isCompleted`: pure read of the first task with the given name; throws
when the document or the task is missing. -/
def isCompleted (st : Option TrackingDoc) (taskName : String) : Except TrackErr Bool :=
  match getTrackingDoc st with
  | .error e => .error e
  | .ok trackingDoc =>
    match trackingDoc.weeklyTasks.find? (fun t => t.name == taskName) with
    | none => .error .notFound
    | some task => .ok task.completed

/-- `tasksCompleted`: `weeklyTasks.every((task) => task.completed)`. -/
def tasksCompleted (st : Option TrackingDoc) : Except TrackErr Bool :=
  match getTrackingDoc st with
  | .error e => .error e
  | .ok trackingDoc => .ok (trackingDoc.weeklyTasks.all (fun t => t.completed))

/-- `promptChange`: needs the document and the task (throws otherwise);
computes the suggestion from `userGoal`, the stored `previousDifficulty`
and the reported `currentDifficulty`, then unconditionally overwrites the
task's `previousDifficulty` with `currentDifficulty` and writes back.
Returns the message (`suggestion || "No changes suggested!"`) and the task. -/
def promptChange (st : Option TrackingDoc) (taskName : String)
    (currentDifficulty : Difficulty) :
    Except TrackErr (String × Task) × Option TrackingDoc :=
  match getTrackingDoc st with
  | .error e => (.error e, st)
  | .ok trackingDoc =>
    match trackingDoc.weeklyTasks.find? (fun t => t.name == taskName) with
    | none => (.error .notFound, st)
    | some task =>
      let goal := trackingDoc.userGoal
      let suggestion : Option String :=
        if task.previousDifficulty = .Difficult ∧ currentDifficulty = .Difficult then
          if goal = "muscle" ∨ goal = "endurance" then
            some "Consider decreasing the weight by 5 lbs."
          else if goal = "strength" then
            some "Consider decreasing the reps by 2."
          else none
        else if task.previousDifficulty = .Easy ∧ currentDifficulty = .Easy then
          if goal = "strength" then
            some "Consider increasing the weight."
          else
            some "Consider increasing the reps."
        else none
      let newTask : Task := { task with previousDifficulty := currentDifficulty }
      let newTasks := updateFirst (fun t => t.name == taskName)
        (fun t => { t with previousDifficulty := currentDifficulty }) trackingDoc.weeklyTasks
      (.ok (suggestion.getD "No changes suggested!", newTask),
       some { trackingDoc with weeklyTasks := newTasks })

/-- `resetWeeklyTasks`: needs the document (throws otherwise); pushes one
`ProgressEntry` holding the currently completed tasks, then maps every task
to a copy with `completed := false`.  `weekStart` is the precomputed
`getStartOfWeek(new Date())`. -/
def resetWeeklyTasks (st : Option TrackingDoc) (weekStart : Int) :
    Except TrackErr Unit × Option TrackingDoc :=
  match getTrackingDoc st with
  | .error e => (.error e, st)
  | .ok trackingDoc =>
    let completedTasks := trackingDoc.weeklyTasks.filter (fun t => t.completed)
    let newHistory := trackingDoc.progressHistory ++
      [{ weekStart := weekStart, completedTasks := completedTasks }]
    let newTasks := trackingDoc.weeklyTasks.map (fun t => { t with completed := false })
    (.ok (), some { trackingDoc with weeklyTasks := newTasks, progressHistory := newHistory })

/-- `getProgressHistory`: read of the full history; throws when no document. -/
def getProgressHistory (st : Option TrackingDoc) : Except TrackErr (List ProgressEntry) :=
  match getTrackingDoc st with
  | .error e => .error e
  | .ok trackingDoc => .ok trackingDoc.progressHistory

/-- `getTasks`: read of the weekly task list; throws when no document. -/
def getTasks (st : Option TrackingDoc) : Except TrackErr (List Task) :=
  match getTrackingDoc st with
  | .error e => .error e
  | .ok trackingDoc => .ok trackingDoc.weeklyTasks

/-- `Math.round` of JavaScript: round half toward positive infinity. -/
def jsRound (x : Rat) : Int := (x + 1 / 2).floor

/-- `getCompletedPercentage`: `0` on an empty list, otherwise
`Math.round((completed / total) * 100 * 100) / 100`. -/
def getCompletedPercentage (st : Option TrackingDoc) : Except TrackErr Rat :=
  match getTrackingDoc st with
  | .error e => .error e
  | .ok trackingDoc =>
    if trackingDoc.weeklyTasks.length = 0 then .ok 0
    else
      let completedTasks : Int := (trackingDoc.weeklyTasks.filter (fun t => t.completed)).length
      let totalTasks : Int := trackingDoc.weeklyTasks.length
      let percentage : Rat := (completedTasks : Rat) / (totalTasks : Rat) * 100
      .ok ((jsRound (percentage * 100) : Rat) / 100)

end Tracking

namespace Pointing

/-- `PointDoc` of the canonical (verifiedPosts-tracking) PointingConcept.
Post `ObjectId`s become `Nat`; the source compares them via `toString`,
which is injective on ObjectIds, so comparison is plain equality. -/
structure PointDoc where
  points : Int
  verifiedPosts : List Nat
deriving DecidableEq, Repr

/-- Errors `awardPoints` can raise: `NotFoundError` (no points document),
`InvalidPointAwardError` (duplicate or invalid verification removal),
`NotAllowedError` (total would drop below zero). -/
inductive PointErr where
  | notFound
  | invalidAward
  | notAllowed
deriving DecidableEq, Repr

/-- `awardPoints` of the canonical PointingConcept: validates the optional
`verifiedPost` against the stored set, then checks the total stays
nonnegative; only then does it write.  Every throw happens before the
`partialUpdateOne`, so the post-state equals the pre-state on error. -/
def awardPoints (st : Option PointDoc) (amount : Int) (verifiedPost : Option Nat) :
    Except PointErr PointDoc × Option PointDoc :=
  match st with
  | none => (.error .notFound, st)
  | some pointDoc =>
    let checked : Except PointErr (List Nat) :=
      match verifiedPost with
      | none => .ok pointDoc.verifiedPosts
      | some post =>
        if 0 ≤ amount ∧ ¬ post ∈ pointDoc.verifiedPosts then
          .ok (pointDoc.verifiedPosts ++ [post])
        else if amount < 0 ∧ post ∈ pointDoc.verifiedPosts then
          .ok (pointDoc.verifiedPosts.filter (fun e => !(e == post)))
        else .error .invalidAward
    match checked with
    | .error e => (.error e, st)
    | .ok newPosts =>
      if pointDoc.points + amount < 0 then (.error .notAllowed, st)
      else
        let newDoc : PointDoc := { points := pointDoc.points + amount, verifiedPosts := newPosts }
        (.ok newDoc, some newDoc)

end Pointing

namespace Tracking

/-- The suggestion rule exactly as the specification words it: two
independent two-in-a-row conditions, a goal bucket inside each, `none`
everywhere else.  Stated separately from `promptChange` so that the code's
behaviour can be compared against the spec's table. -/
def suggestionSpec (goal : String) (prev cur : Difficulty) : Option String :=
  if prev = .Difficult ∧ cur = .Difficult then
    if goal = "muscle" ∨ goal = "endurance" then
      some "Consider decreasing the weight by 5 lbs."
    else if goal = "strength" then
      some "Consider decreasing the reps by 2."
    else none
  else if prev = .Easy ∧ cur = .Easy then
    if goal = "strength" then
      some "Consider increasing the weight."
    else
      some "Consider increasing the reps."
  else none

/-- Rounding to 2 decimal places with standard (half-up) rounding, as the
specification words it. -/
def round2 (x : Rat) : Rat := (((x * 100 + 1 / 2).floor : Int) : Rat) / 100

/-- One call to a `TrackingConcept` method, with its arguments. -/
inductive TrackOp where
  | createTaskOp (name desc : String) (reps : Int) (sets : Option Int) (w : Option Rat)
  | updateTaskOp (name : String) (r s : Option Int) (w : Option Rat)
  | deleteTaskOp (name : String)
  | setUserGoalOp (goal : String)
  | setCompletedOp (name : String)
  | isCompletedOp (name : String)
  | tasksCompletedOp
  | promptChangeOp (name : String) (cur : Difficulty)
  | resetWeeklyTasksOp (weekStart : Int)
  | createTrackingDocOp
  | getTasksOp
  | getProgressHistoryOp
  | getCompletedPercentageOp

/-- The state transition of each `TrackingConcept` method.  The pure reads
(`isCompleted`, `tasksCompleted`, `getTasks`, `getProgressHistory`,
`getCompletedPercentage`) perform no write, so their transition is the
identity. -/
def applyOp (op : TrackOp) (st : Option TrackingDoc) : Option TrackingDoc :=
  match op with
  | .createTaskOp n d r s w => (createTask st n d r s w).2
  | .updateTaskOp n r s w => (updateTask st n r s w).2
  | .deleteTaskOp n => (deleteTask st n).2
  | .setUserGoalOp g => setUserGoal st g
  | .setCompletedOp n => (setCompleted st n).2
  | .isCompletedOp _ => st
  | .tasksCompletedOp => st
  | .promptChangeOp n c => (promptChange st n c).2
  | .resetWeeklyTasksOp ws => (resetWeeklyTasks st ws).2
  | .createTrackingDocOp => (createTrackingDoc st).2
  | .getTasksOp => st
  | .getProgressHistoryOp => st
  | .getCompletedPercentageOp => st

/-- The user's archived history in a given state; a user without a tracking
document has archived nothing. -/
def historyOf (st : Option TrackingDoc) : List ProgressEntry :=
  match st with
  | none => []
  | some doc => doc.progressHistory

/-- Concrete fixture tasks and documents used to instantiate theorems. -/
def sampleTask : Task :=
  { name := "squat", description := "legs", reps := 10, sets := some 3,
    weight := some 100, completed := false, previousDifficulty := .JustRight }

def benchTask : Task :=
  { name := "bench", description := "chest", reps := 8, sets := some 3,
    weight := some 60, completed := false, previousDifficulty := .JustRight }

def rowTask : Task :=
  { name := "row", description := "back", reps := 12, sets := none,
    weight := none, completed := false, previousDifficulty := .JustRight }

def docEasy : TrackingDoc :=
  { userGoal := "", weeklyTasks := [{ sampleTask with previousDifficulty := .Easy }],
    progressHistory := [] }

def docDone : TrackingDoc :=
  { userGoal := "", weeklyTasks := [{ sampleTask with completed := true }],
    progressHistory := [] }

def docThird : TrackingDoc :=
  { userGoal := "", weeklyTasks := [{ sampleTask with completed := true }, benchTask, rowTask],
    progressHistory := [] }

def docTwo : TrackingDoc :=
  { userGoal := "", weeklyTasks := [sampleTask, benchTask], progressHistory := [] }

def docDup : TrackingDoc :=
  { userGoal := "", weeklyTasks := [sampleTask, { sampleTask with reps := 99 }, benchTask],
    progressHistory := [] }

def docNine : TrackingDoc :=
  { userGoal := "", weeklyTasks := [benchTask], progressHistory := [] }

def emptyDoc : TrackingDoc :=
  { userGoal := "", weeklyTasks := [], progressHistory := [] }

end Tracking

namespace Tracking

/-! ### Helper lemmas about `find?` and `updateFirst` -/

theorem find?_append_none (p : Task → Bool) (l₁ l₂ : List Task)
    (h : ∀ u ∈ l₁, p u = false) : (l₁ ++ l₂).find? p = l₂.find? p := by
  induction l₁ with
  | nil => rfl
  | cons x xs ih =>
    have hx : ¬ p x = true := by simp [h x (List.mem_cons_self x xs)]
    rw [List.cons_append, List.find?_cons_of_neg _ hx]
    exact ih fun u hu => h u (List.mem_cons_of_mem _ hu)

theorem find?_split (p : Task → Bool) (l₁ l₂ : List Task) (task : Task)
    (h : ∀ u ∈ l₁, p u = false) (ht : p task = true) :
    (l₁ ++ task :: l₂).find? p = some task := by
  rw [find?_append_none p l₁ _ h, List.find?_cons_of_pos _ ht]

theorem updateFirst_append_none (p : Task → Bool) (f : Task → Task) (l₁ l₂ : List Task)
    (h : ∀ u ∈ l₁, p u = false) :
    updateFirst p f (l₁ ++ l₂) = l₁ ++ updateFirst p f l₂ := by
  induction l₁ with
  | nil => rfl
  | cons x xs ih =>
    have hx : p x = false := h x (List.mem_cons_self x xs)
    simp only [List.cons_append, updateFirst, hx, Bool.false_eq_true, if_false]
    exact congrArg (List.cons x) (ih fun u hu => h u (List.mem_cons_of_mem _ hu))

theorem updateFirst_split (p : Task → Bool) (f : Task → Task) (l₁ l₂ : List Task)
    (task : Task) (h : ∀ u ∈ l₁, p u = false) (ht : p task = true) :
    updateFirst p f (l₁ ++ task :: l₂) = l₁ ++ f task :: l₂ := by
  rw [updateFirst_append_none p f l₁ _ h]
  simp only [updateFirst, ht, if_true]

theorem find?_updateFirst (p : Task → Bool) (f : Task → Task)
    (hpf : ∀ t, p t = true → p (f t) = true) :
    ∀ (l : List Task) (t : Task), l.find? p = some t →
      (updateFirst p f l).find? p = some (f t) := by
  intro l
  induction l with
  | nil => intro t h; simp [List.find?] at h
  | cons x xs ih =>
    intro t h
    by_cases hx : p x = true
    · rw [List.find?_cons_of_pos _ hx, Option.some.injEq] at h
      subst h
      simp only [updateFirst, hx, if_true]
      exact List.find?_cons_of_pos _ (hpf _ hx)
    · have hx' : p x = false := by rw [Bool.not_eq_true] at hx; exact hx
      rw [List.find?_cons_of_neg _ hx] at h
      simp only [updateFirst, hx', Bool.false_eq_true, if_false]
      rw [List.find?_cons_of_neg _ hx]
      exact ih t h

theorem updateFirst_updateFirst (p : Task → Bool) (f : Task → Task)
    (hpf : ∀ t, p t = true → p (f t) = true) (hff : ∀ t, f (f t) = t) :
    ∀ l : List Task, updateFirst p f (updateFirst p f l) = l := by
  intro l
  induction l with
  | nil => rfl
  | cons x xs ih =>
    by_cases hx : p x = true
    · simp only [updateFirst, hx, if_true, hpf x hx, hff]
    · have hx' : p x = false := by rw [Bool.not_eq_true] at hx; exact hx
      simp only [updateFirst, hx', Bool.false_eq_true, if_false, ih]

/-! ### Claim theorems -/

/-- C1: `promptChange` on an existing record and task returns exactly the
suggestion the specification's table prescribes — decrease weight by 5 for
goal muscle/endurance and decrease reps by 2 for goal strength on
Difficult-twice, increase weight for strength and increase reps otherwise on
Easy-twice, nothing in every other combination — and afterwards the task's
`previousDifficulty` equals `currentDifficulty` in all cases. -/
theorem promptChange_spec (doc : TrackingDoc) (taskName : String) (cur : Difficulty)
    (task : Task)
    (hfind : doc.weeklyTasks.find? (fun t => t.name == taskName) = some task) :
    ∃ doc' : TrackingDoc,
      promptChange (some doc) taskName cur =
        (Except.ok
          ((suggestionSpec doc.userGoal task.previousDifficulty cur).getD
             "No changes suggested!",
           { task with previousDifficulty := cur }),
         some doc') ∧
      doc'.weeklyTasks.find? (fun t => t.name == taskName) =
        some { task with previousDifficulty := cur } ∧
      doc'.userGoal = doc.userGoal ∧
      doc'.progressHistory = doc.progressHistory := by
  refine ⟨{ doc with
        weeklyTasks :=
          updateFirst (fun t => t.name == taskName)
            (fun t => { t with previousDifficulty := cur }) doc.weeklyTasks },
    ?_, ?_, rfl, rfl⟩
  · simp only [promptChange, getTrackingDoc, hfind, suggestionSpec]
  · exact find?_updateFirst (fun t => t.name == taskName)
      (fun t => { t with previousDifficulty := cur }) (fun t h => h) doc.weeklyTasks task hfind

/-- Witness for C1: two Easy reports in a row with an empty goal yield the
reps-increase suggestion and the stored difficulty becomes Easy. -/
theorem promptChange_spec_witness :
    ∃ doc' : TrackingDoc,
      promptChange (some docEasy) "squat" Difficulty.Easy =
        (Except.ok
          ((suggestionSpec docEasy.userGoal Difficulty.Easy Difficulty.Easy).getD
             "No changes suggested!",
           { sampleTask with previousDifficulty := Difficulty.Easy }),
         some doc') ∧
      doc'.weeklyTasks.find? (fun t => t.name == "squat") =
        some { sampleTask with previousDifficulty := Difficulty.Easy } ∧
      doc'.userGoal = docEasy.userGoal ∧
      doc'.progressHistory = docEasy.progressHistory :=
  promptChange_spec docEasy "squat" Difficulty.Easy
    { sampleTask with previousDifficulty := Difficulty.Easy } rfl

end Tracking

namespace Tracking

/-- C2 counterexample: with no tracking record, `resetWeeklyTasks` and
`getCompletedPercentage` raise NotFound rather than succeeding, refuting the
claim that all four operations never raise an error. -/
theorem noRecord_reset_percentage_error :
    (resetWeeklyTasks none 0).1 = Except.error TrackErr.notFound ∧
    getCompletedPercentage none = Except.error TrackErr.notFound :=
  ⟨rfl, rfl⟩

/-- C2 amended: `createTask` and `setUserGoal` never raise an error for any
input, even without a tracking record; `resetWeeklyTasks` and
`getCompletedPercentage` never raise an error when a tracking record exists,
but raise NotFound when the user has none. -/
theorem total_ops_never_fail :
    (∀ (st : Option TrackingDoc) (n d : String) (r : Int) (s : Option Int) (w : Option Rat),
      ∃ doc : TrackingDoc, (createTask st n d r s w).2 = some doc) ∧
    (∀ g : String, setUserGoal none g = none) ∧
    (∀ (doc : TrackingDoc) (g : String),
      setUserGoal (some doc) g = some { doc with userGoal := g }) ∧
    (∀ (doc : TrackingDoc) (ws : Int), (resetWeeklyTasks (some doc) ws).1 = Except.ok ()) ∧
    (∀ doc : TrackingDoc, ∃ q : Rat, getCompletedPercentage (some doc) = Except.ok q) ∧
    (∀ ws : Int, (resetWeeklyTasks none ws).1 = Except.error TrackErr.notFound) ∧
    getCompletedPercentage none = Except.error TrackErr.notFound := by
  refine ⟨?_, fun g => rfl, fun doc g => rfl, fun doc ws => rfl, ?_, fun ws => rfl, rfl⟩
  · intro st n d r s w
    cases st <;> exact ⟨_, rfl⟩
  · intro doc
    by_cases h : doc.weeklyTasks.length = 0
    · exact ⟨0, by simp [getCompletedPercentage, getTrackingDoc, h]⟩
    · exact ⟨((jsRound (((((doc.weeklyTasks.filter fun t => t.completed).length : Int) : Rat) /
          (((doc.weeklyTasks.length : Int)) : Rat) * 100) * 100) : Int) : Rat) / 100,
        by simp [getCompletedPercentage, getTrackingDoc, h]⟩

/-- C3 counterexample: on an empty weekly task list `tasksCompleted` returns
true, although the list is not non-empty, refuting the claimed
"non-empty and all completed" characterisation. -/
theorem tasksCompleted_empty_true :
    tasksCompleted (some emptyDoc) = Except.ok true ∧ emptyDoc.weeklyTasks = [] :=
  ⟨rfl, rfl⟩

/-- C3 amended: for a user with a tracking record, `tasksCompleted` returns
true iff every task in `weeklyTasks` is completed (vacuously true on an
empty list). -/
theorem tasksCompleted_iff (doc : TrackingDoc) :
    tasksCompleted (some doc) = Except.ok true ↔
      ∀ t ∈ doc.weeklyTasks, t.completed = true := by
  simp [tasksCompleted, getTrackingDoc, List.all_eq_true]

/-- Witness for C3's amended theorem at a concrete document whose single
task is completed. -/
theorem tasksCompleted_iff_witness :
    tasksCompleted (some docDone) = Except.ok true :=
  (tasksCompleted_iff docDone).mpr (by decide)

/-- C5: `getCompletedPercentage` on an existing record returns 0 for an empty
list and otherwise the completion ratio times 100 rounded to 2 decimal
places with standard (half-up) rounding; with 3 tasks, 1 completed, it
returns 33.33. -/
theorem getCompletedPercentage_spec :
    (∀ doc : TrackingDoc,
      getCompletedPercentage (some doc) =
        Except.ok (if doc.weeklyTasks.length = 0 then 0
          else round2
            (((doc.weeklyTasks.filter (fun t => t.completed)).length : Rat) /
              (doc.weeklyTasks.length : Rat) * 100))) ∧
    getCompletedPercentage (some docThird) = Except.ok (3333 / 100) := by
  constructor
  · intro doc
    by_cases h : doc.weeklyTasks.length = 0
    · simp [getCompletedPercentage, getTrackingDoc, h]
    · simp only [getCompletedPercentage, getTrackingDoc, h, if_false, round2, jsRound]
      push_cast
      ring_nf
  · simp only [getCompletedPercentage, getTrackingDoc, docThird]
    norm_num [jsRound, Rat.floor_def', sampleTask, benchTask, rowTask]

end Tracking

namespace Tracking

/-- C4: on an existing record, `resetWeeklyTasks` appends exactly one
`ProgressEntry` holding exactly the currently completed tasks, sets
`completed := false` on every weekly task, and leaves the user goal and
every other field of every task (name, description, reps, sets, weight,
previousDifficulty) unchanged. -/
theorem resetWeeklyTasks_frame (doc : TrackingDoc) (ws : Int) :
    ∃ doc' : TrackingDoc,
      resetWeeklyTasks (some doc) ws = (Except.ok (), some doc') ∧
      doc'.progressHistory =
        doc.progressHistory ++
          [{ weekStart := ws, completedTasks := doc.weeklyTasks.filter fun t => t.completed }] ∧
      doc'.userGoal = doc.userGoal ∧
      doc'.weeklyTasks = (doc.weeklyTasks.map fun t => { t with completed := false }) ∧
      doc'.weeklyTasks.map (fun t => t.name) = doc.weeklyTasks.map (fun t => t.name) ∧
      doc'.weeklyTasks.map (fun t => t.description) =
        doc.weeklyTasks.map (fun t => t.description) ∧
      doc'.weeklyTasks.map (fun t => t.reps) = doc.weeklyTasks.map (fun t => t.reps) ∧
      doc'.weeklyTasks.map (fun t => t.sets) = doc.weeklyTasks.map (fun t => t.sets) ∧
      doc'.weeklyTasks.map (fun t => t.weight) = doc.weeklyTasks.map (fun t => t.weight) ∧
      doc'.weeklyTasks.map (fun t => t.previousDifficulty) =
        doc.weeklyTasks.map (fun t => t.previousDifficulty) := by
  refine ⟨_, rfl, rfl, rfl, rfl, ?_, ?_, ?_, ?_, ?_, ?_⟩ <;> (rw [List.map_map]; rfl)

/-- C6: `updateTask` raises NotFound exactly when the user has no tracking
record or no task with the given name exists; otherwise it overwrites only
the provided optional fields of the first task with that name, every
unprovided field keeps its pre-update value, and every other task in the
list is untouched. -/
theorem updateTask_spec :
    (∀ (n : String) (r s : Option Int) (w : Option Rat),
      updateTask none n r s w = (Except.error TrackErr.notFound, none)) ∧
    (∀ (doc : TrackingDoc) (n : String) (r s : Option Int) (w : Option Rat),
      doc.weeklyTasks.find? (fun t => t.name == n) = none →
      updateTask (some doc) n r s w = (Except.error TrackErr.notFound, some doc)) ∧
    (∀ (doc : TrackingDoc) (n : String) (l₁ l₂ : List Task) (task : Task)
        (r s : Option Int) (w : Option Rat),
      doc.weeklyTasks = l₁ ++ task :: l₂ →
      (∀ u ∈ l₁, (u.name == n) = false) →
      (task.name == n) = true →
      ∃ t' : Task,
        updateTask (some doc) n r s w =
          (Except.ok t', some { doc with weeklyTasks := l₁ ++ t' :: l₂ }) ∧
        t'.name = task.name ∧ t'.description = task.description ∧
        t'.completed = task.completed ∧ t'.previousDifficulty = task.previousDifficulty ∧
        t'.reps = (match r with | some v => v | none => task.reps) ∧
        t'.sets = (match s with | some v => some v | none => task.sets) ∧
        t'.weight = (match w with | some v => some v | none => task.weight)) := by
  refine ⟨fun n r s w => rfl, ?_, ?_⟩
  · intro doc n r s w hfind
    simp only [updateTask, getTrackingDoc, hfind]
  · intro doc n l₁ l₂ task r s w hsplit hl₁ hname
    have hfind : doc.weeklyTasks.find? (fun t => t.name == n) = some task := by
      rw [hsplit]; exact find?_split _ l₁ l₂ task hl₁ hname
    simp only [updateTask, getTrackingDoc, hfind]
    rw [hsplit, updateFirst_split _ _ l₁ l₂ task hl₁ hname]
    refine ⟨_, rfl, ?_, ?_, ?_, ?_, ?_, ?_, ?_⟩ <;>
      cases r <;> cases s <;> cases w <;> rfl

/-- Witness for C6: updating only the reps of the second of two tasks leaves
its other fields and the first task untouched. -/
theorem updateTask_spec_witness :
    ∃ t' : Task,
      updateTask (some docTwo) "bench" (some 12) none none =
        (Except.ok t', some { docTwo with weeklyTasks := [sampleTask] ++ t' :: [] }) ∧
      t'.name = benchTask.name ∧ t'.description = benchTask.description ∧
      t'.completed = benchTask.completed ∧ t'.previousDifficulty = benchTask.previousDifficulty ∧
      t'.reps = 12 ∧ t'.sets = benchTask.sets ∧ t'.weight = benchTask.weight :=
  updateTask_spec.2.2 docTwo "bench" [sampleTask] [] benchTask (some 12) none none
    rfl (by decide) rfl

/-- C7: `progressHistory` is append-only: across every operation of the
concept the pre-state history is a prefix of the post-state history, so
archived entries are never modified or dropped. -/
theorem progressHistory_append_only (op : TrackOp) (st : Option TrackingDoc) :
    historyOf st <+: historyOf (applyOp op st) := by
  cases st with
  | none =>
    cases op <;>
      simp [applyOp, createTask, createTrackingDoc, updateTask, deleteTask, setUserGoal,
        setCompleted, promptChange, resetWeeklyTasks, getTrackingDoc, historyOf,
        List.nil_prefix]
  | some doc =>
    cases op with
    | createTaskOp n d r s w =>
      simp [applyOp, createTask, createTrackingDoc, historyOf, List.prefix_refl]
    | updateTaskOp n r s w =>
      cases hfind : doc.weeklyTasks.find? (fun t => t.name == n) <;>
        simp [applyOp, updateTask, getTrackingDoc, hfind, historyOf, List.prefix_refl]
    | deleteTaskOp n =>
      simp [applyOp, deleteTask, getTrackingDoc, historyOf, List.prefix_refl]
    | setUserGoalOp g => simp [applyOp, setUserGoal, historyOf, List.prefix_refl]
    | setCompletedOp n =>
      cases hfind : doc.weeklyTasks.find? (fun t => t.name == n) <;>
        simp [applyOp, setCompleted, getTrackingDoc, hfind, historyOf, List.prefix_refl]
    | promptChangeOp n c =>
      cases hfind : doc.weeklyTasks.find? (fun t => t.name == n) <;>
        simp [applyOp, promptChange, getTrackingDoc, hfind, historyOf, List.prefix_refl]
    | resetWeeklyTasksOp ws =>
      simp only [applyOp, resetWeeklyTasks, getTrackingDoc, historyOf]
      exact List.prefix_append _ _
    | createTrackingDocOp =>
      simp [applyOp, createTrackingDoc, historyOf, List.prefix_refl]
    | tasksCompletedOp => exact List.prefix_refl _
    | isCompletedOp n => exact List.prefix_refl _
    | getTasksOp => exact List.prefix_refl _
    | getProgressHistoryOp => exact List.prefix_refl _
    | getCompletedPercentageOp => exact List.prefix_refl _

end Tracking

namespace Pointing

/-- C8: in the canonical PointingConcept, for a user with a points document,
`awardPoints` raises an error exactly when a nonnegative award names an
already-verified post, a negative award names a post that is not verified,
or the resulting total would be negative; in every error case the stored
document is unchanged. -/
theorem awardPoints_spec (doc : PointDoc) (amount : Int) (vp : Option Nat) :
    (((awardPoints (some doc) amount vp).1.isOk = false) ↔
      ((∃ p, vp = some p ∧
          ((0 ≤ amount ∧ p ∈ doc.verifiedPosts) ∨ (amount < 0 ∧ p ∉ doc.verifiedPosts))) ∨
        doc.points + amount < 0)) ∧
    ((awardPoints (some doc) amount vp).1.isOk = false →
      (awardPoints (some doc) amount vp).2 = some doc) := by
  cases vp with
  | none =>
    by_cases h : doc.points + amount < 0 <;>
      simp [awardPoints, Except.isOk, Except.toBool, h]
  | some post =>
    by_cases h1 : 0 ≤ amount ∧ ¬ post ∈ doc.verifiedPosts
    · by_cases h : doc.points + amount < 0 <;>
        simp [awardPoints, Except.isOk, Except.toBool, h1, h]
    · by_cases h2 : amount < 0 ∧ post ∈ doc.verifiedPosts
      · by_cases h : doc.points + amount < 0 <;>
          simp [awardPoints, Except.isOk, Except.toBool, h1, h2, h]
      · have hres : awardPoints (some doc) amount (some post) =
            (Except.error PointErr.invalidAward, some doc) := by
          simp [awardPoints, h1, h2]
        rw [hres]
        refine ⟨⟨fun _ => ?_, fun _ => rfl⟩, fun _ => rfl⟩
        left
        refine ⟨post, rfl, ?_⟩
        by_cases hm : post ∈ doc.verifiedPosts
        · exact Or.inl ⟨by by_contra hlt; exact h2 ⟨by omega, hm⟩, hm⟩
        · exact Or.inr ⟨by by_contra hge; exact h1 ⟨by omega, hm⟩, hm⟩

/-- Witness for C8: awarding 5 points for an already-verified post fails and
leaves the stored document unchanged. -/
theorem awardPoints_spec_witness :
    (awardPoints (some { points := 10, verifiedPosts := [1] }) 5 (some 1)).1.isOk = false ∧
    (awardPoints (some { points := 10, verifiedPosts := [1] }) 5 (some 1)).2 =
      some { points := 10, verifiedPosts := [1] } := by
  have h := awardPoints_spec { points := 10, verifiedPosts := [1] } 5 (some 1)
  have herr :
      (awardPoints (some { points := 10, verifiedPosts := [1] }) 5 (some 1)).1.isOk = false :=
    h.1.mpr (Or.inl ⟨1, rfl, Or.inl ⟨by decide, by decide⟩⟩)
  exact ⟨herr, h.2 herr⟩

end Pointing

namespace Tracking

/-- C9: toggling completion twice on the same task name restores the task's
original completed value; a single call flips it, and the second call
restores the entire original document. -/
theorem setCompleted_involution (doc : TrackingDoc) (n : String) (task : Task)
    (hfind : doc.weeklyTasks.find? (fun t => t.name == n) = some task) :
    ∃ doc₁ : TrackingDoc,
      (setCompleted (some doc) n).2 = some doc₁ ∧
      doc₁.weeklyTasks.find? (fun t => t.name == n) =
        some { task with completed := !task.completed } ∧
      (setCompleted (some doc₁) n).2 = some doc := by
  have hff : ∀ t : Task, ({ t with completed := !(!t.completed) } : Task) = t := by
    intro t; cases t; simp [Bool.not_not]
  have hfind₁ := find?_updateFirst (fun t => t.name == n)
    (fun t => { t with completed := !t.completed }) (fun t h => h) doc.weeklyTasks task hfind
  refine ⟨{ doc with
        weeklyTasks :=
          updateFirst (fun t => t.name == n)
            (fun t => { t with completed := !t.completed }) doc.weeklyTasks },
    ?_, hfind₁, ?_⟩
  · simp only [setCompleted, getTrackingDoc, hfind]
  · simp only [setCompleted, getTrackingDoc, hfind₁]
    rw [updateFirst_updateFirst (fun t => t.name == n)
      (fun t => { t with completed := !t.completed }) (fun t h => h) hff doc.weeklyTasks]

/-- Witness for C9 at a concrete single-task document. -/
theorem setCompleted_involution_witness :
    ∃ doc₁ : TrackingDoc,
      (setCompleted (some docNine) "bench").2 = some doc₁ ∧
      doc₁.weeklyTasks.find? (fun t => t.name == "bench") =
        some { benchTask with completed := !benchTask.completed } ∧
      (setCompleted (some doc₁) "bench").2 = some docNine :=
  setCompleted_involution docNine "bench" benchTask rfl

/-- C10: with duplicate task names (which `createTask` permits, appending
without any uniqueness check), the name-keyed operations `isCompleted`,
`setCompleted`, `promptChange` and `updateTask` read or mutate only the
first task with the given name, leaving every later task — including later
same-named ones — untouched, whereas `deleteTask` removes every task with
that name in one call. -/
theorem firstMatch_semantics (doc : TrackingDoc) (n : String) (l₁ l₂ : List Task)
    (task : Task) (cur : Difficulty)
    (hsplit : doc.weeklyTasks = l₁ ++ task :: l₂)
    (hl₁ : ∀ u ∈ l₁, (u.name == n) = false)
    (hname : (task.name == n) = true) :
    isCompleted (some doc) n = Except.ok task.completed ∧
    (setCompleted (some doc) n).2 =
      some { doc with
        weeklyTasks := l₁ ++ { task with completed := !task.completed } :: l₂ } ∧
    (promptChange (some doc) n cur).2 =
      some { doc with
        weeklyTasks := l₁ ++ { task with previousDifficulty := cur } :: l₂ } ∧
    (∀ (r s : Option Int) (w : Option Rat), ∃ t' : Task,
      (updateTask (some doc) n r s w).2 =
        some { doc with weeklyTasks := l₁ ++ t' :: l₂ }) ∧
    (deleteTask (some doc) n).2 =
      some { doc with weeklyTasks := l₁ ++ l₂.filter (fun u => !(u.name == n)) } ∧
    (∀ (d : String) (r : Int) (s : Option Int) (w : Option Rat),
      (createTask (some doc) n d r s w).2 =
        some { doc with weeklyTasks := doc.weeklyTasks ++
          [{ name := n, description := d, reps := r, sets := s, weight := w,
             completed := false, previousDifficulty := Difficulty.JustRight }] }) := by
  have hfind : doc.weeklyTasks.find? (fun t => t.name == n) = some task := by
    rw [hsplit]; exact find?_split _ l₁ l₂ task hl₁ hname
  refine ⟨?_, ?_, ?_, ?_, ?_, fun d r s w => rfl⟩
  · simp only [isCompleted, getTrackingDoc, hfind]
  · simp only [setCompleted, getTrackingDoc, hfind]
    rw [hsplit, updateFirst_split _ _ l₁ l₂ task hl₁ hname]
  · simp only [promptChange, getTrackingDoc, hfind]
    rw [hsplit, updateFirst_split _ _ l₁ l₂ task hl₁ hname]
  · intro r s w
    simp only [updateTask, getTrackingDoc, hfind]
    rw [hsplit, updateFirst_split _ _ l₁ l₂ task hl₁ hname]
    exact ⟨_, rfl⟩
  · have h₁ : l₁.filter (fun u => !(u.name == n)) = l₁ :=
      List.filter_eq_self.mpr (fun u hu => by rw [hl₁ u hu]; rfl)
    have h₂ : (task :: l₂).filter (fun u => !(u.name == n)) =
        l₂.filter (fun u => !(u.name == n)) := by
      simp [List.filter_cons, hname]
    simp only [deleteTask, getTrackingDoc, hsplit, List.filter_append, h₁, h₂]

/-- Witness for C10 at a document holding two tasks named squat. -/
theorem firstMatch_semantics_witness :
    isCompleted (some docDup) "squat" = Except.ok sampleTask.completed ∧
    (setCompleted (some docDup) "squat").2 =
      some { docDup with
        weeklyTasks := [] ++ { sampleTask with completed := !sampleTask.completed } ::
          [{ sampleTask with reps := 99 }, benchTask] } ∧
    (promptChange (some docDup) "squat" Difficulty.Easy).2 =
      some { docDup with
        weeklyTasks := [] ++ { sampleTask with previousDifficulty := Difficulty.Easy } ::
          [{ sampleTask with reps := 99 }, benchTask] } ∧
    (∀ (r s : Option Int) (w : Option Rat), ∃ t' : Task,
      (updateTask (some docDup) "squat" r s w).2 =
        some { docDup with
          weeklyTasks := [] ++ t' :: [{ sampleTask with reps := 99 }, benchTask] }) ∧
    (deleteTask (some docDup) "squat").2 =
      some { docDup with
        weeklyTasks := [] ++ [{ sampleTask with reps := 99 },
          benchTask].filter (fun u => !(u.name == "squat")) } ∧
    (∀ (d : String) (r : Int) (s : Option Int) (w : Option Rat),
      (createTask (some docDup) "squat" d r s w).2 =
        some { docDup with weeklyTasks := docDup.weeklyTasks ++
          [{ name := "squat", description := d, reps := r, sets := s, weight := w,
             completed := false, previousDifficulty := Difficulty.JustRight }] }) :=
  firstMatch_semantics docDup "squat" [] [{ sampleTask with reps := 99 }, benchTask]
    sampleTask Difficulty.Easy rfl (by decide) rfl

end Tracking
